import Mathlib

/-
Verification of the imperative interaction core of an infinite-canvas note
surface: the pan/zoom viewport controller (`canvasController`), the drag
controller (`dragHandler`), and the two resize-controller variants
(`resizeHandler`).  Each TypeScript function is shallowly embedded as a Lean
function; mutable controller-local state becomes an explicit state record and
event handlers become state-transition functions.  Exact arithmetic (ℝ for the
viewport controller, which uses `Math.exp`; ℚ elsewhere) stands in for IEEE
doubles.
-/

set_option maxHeartbeats 2000000

namespace Field

namespace CanvasCtrl

/-- The viewport record `{ scale, translateX, translateY }`. -/
@[ext] structure Viewport where
  scale : ℝ
  translateX : ℝ
  translateY : ℝ

/-- The container element's bounding client rect (only the origin is read). -/
structure Rect where
  left : ℝ
  top : ℝ

def MIN_SCALE : ℝ := 0.1

def MAX_SCALE : ℝ := 10

/-- `screenToCanvas(screenX, screenY)`: maps a viewport-relative screen point
to world coordinates using the current transform. -/
noncomputable def screenToCanvas (rect : Rect) (v : Viewport) (screenX screenY : ℝ) : ℝ × ℝ :=
  ((screenX - rect.left - v.translateX) / v.scale,
   (screenY - rect.top - v.translateY) / v.scale)

/-- `zoomAtPoint(zoomDelta, screenX, screenY)`: cursor-anchored zoom.  The
world position under the cursor is computed with the pre-zoom transform, the
new scale is `clamp(scale * exp(delta), MIN_SCALE, MAX_SCALE)`, and the
translation is re-solved so that world position maps back to the cursor. -/
noncomputable def zoomAtPoint (rect : Rect) (v : Viewport) (zoomDelta screenX screenY : ℝ) :
    Viewport :=
  let cursorX := screenX - rect.left
  let cursorY := screenY - rect.top
  let worldX := (cursorX - v.translateX) / v.scale
  let worldY := (cursorY - v.translateY) / v.scale
  let newScale := min MAX_SCALE (max MIN_SCALE (v.scale * Real.exp zoomDelta))
  { scale := newScale
    translateX := cursorX - worldX * newScale
    translateY := cursorY - worldY * newScale }

lemma newScale_pos (x : ℝ) : 0 < min MAX_SCALE (max MIN_SCALE x) := by
  apply lt_min
  · norm_num [MAX_SCALE]
  · exact lt_of_lt_of_le (by norm_num [MIN_SCALE]) (le_max_left _ _)

lemma zoomAtPoint_world (rect : Rect) (v : Viewport) (d px py : ℝ) :
    screenToCanvas rect (zoomAtPoint rect v d px py) px py = screenToCanvas rect v px py := by
  have hpos := newScale_pos (v.scale * Real.exp d)
  have hne : min MAX_SCALE (max MIN_SCALE (v.scale * Real.exp d)) ≠ 0 := ne_of_gt hpos
  unfold screenToCanvas zoomAtPoint
  simp only
  rw [Prod.mk.injEq]
  constructor
  · have h1 : px - rect.left -
        (px - rect.left -
          (px - rect.left - v.translateX) / v.scale *
            min MAX_SCALE (max MIN_SCALE (v.scale * Real.exp d))) =
        (px - rect.left - v.translateX) / v.scale *
          min MAX_SCALE (max MIN_SCALE (v.scale * Real.exp d)) := by ring
    rw [h1, mul_div_cancel_right₀ _ hne]
  · have h2 : py - rect.top -
        (py - rect.top -
          (py - rect.top - v.translateY) / v.scale *
            min MAX_SCALE (max MIN_SCALE (v.scale * Real.exp d))) =
        (py - rect.top - v.translateY) / v.scale *
          min MAX_SCALE (max MIN_SCALE (v.scale * Real.exp d)) := by ring
    rw [h2, mul_div_cancel_right₀ _ hne]

/-- Claim C1: zoom anchoring is exact.  For every viewport state, screen point
`(px, py)` and zoom delta `d`, the world coordinate `screenToCanvas (px, py)`
computed before the zoom equals the one computed after `zoomAtPoint d (px, py)`
(the clamp at `MIN_SCALE`/`MAX_SCALE` included), and consequently any finite
sequence of zooms at a fixed cursor position leaves the anchored world point
unchanged. -/
theorem zoom_anchoring_exact (rect : Rect) (v : Viewport) (d px py : ℝ) :
    screenToCanvas rect (zoomAtPoint rect v d px py) px py = screenToCanvas rect v px py ∧
    ∀ ds : List ℝ,
      screenToCanvas rect (ds.foldl (fun w z => zoomAtPoint rect w z px py) v) px py =
        screenToCanvas rect v px py := by
  refine ⟨zoomAtPoint_world rect v d px py, ?_⟩
  intro ds
  induction ds generalizing v with
  | nil => rfl
  | cons z zs ih =>
      calc screenToCanvas rect
            ((z :: zs).foldl (fun w z => zoomAtPoint rect w z px py) v) px py
          = screenToCanvas rect
            (zs.foldl (fun w z => zoomAtPoint rect w z px py) (zoomAtPoint rect v z px py))
            px py := rfl
        _ = screenToCanvas rect (zoomAtPoint rect v z px py) px py := ih _
        _ = screenToCanvas rect v px py := zoomAtPoint_world rect v z px py

/-- A DOM wheel event, restricted to the fields the controller reads. -/
structure WheelEvt where
  ctrlKey : Bool
  metaKey : Bool
  deltaMode : ℕ
  deltaX : ℝ
  deltaY : ℝ
  clientX : ℝ
  clientY : ℝ

/-- The `pendingZoom` record `{ delta, centerX, centerY }`. -/
structure PendingZoom where
  delta : ℝ
  centerX : ℝ
  centerY : ℝ

/-- A DOM mouse event as read by the pan handlers; `onBackground` abstracts the
`target === containerEl || target === transformEl` check. -/
structure MouseEvt where
  clientX : ℝ
  clientY : ℝ
  button : ℕ
  onBackground : Bool

/-- The mutable closure state of `createCanvasController`, together with the
observable environment effects the claims are about: the number of
`requestAnimationFrame` calls, the number of DOM transform writes
(`applyTransform` calls), the persisted viewport record, and which event
listeners installed by the controller are currently attached. -/
@[ext] structure CtrlState where
  viewport : Viewport
  pendingPanX : ℝ
  pendingPanY : ℝ
  pendingZoom : Option PendingZoom
  rafId : Option ℕ
  rafNext : ℕ
  rafRequests : ℕ
  applyCount : ℕ
  isDragging : Bool
  dragStartX : ℝ
  dragStartY : ℝ
  saveTimeout : Bool
  storage : Option Viewport
  wheelListener : Bool
  mousedownListener : Bool
  mousemoveListener : Bool
  mouseupListener : Bool
  contextmenuListener : Bool

/-- `applyTransform()`: writes the transform to the DOM node (observable here
as a counter increment; the transform itself is `viewport`). -/
def applyTransform (s : CtrlState) : CtrlState :=
  { s with applyCount := s.applyCount + 1 }

/-- `zoomAtPoint` acting on the whole controller state. -/
noncomputable def zoomAtPointS (rect : Rect) (s : CtrlState) (z : PendingZoom) : CtrlState :=
  { s with viewport := zoomAtPoint rect s.viewport z.delta z.centerX z.centerY }

/-- The first block of `processFrame`: `if (pendingZoom) { zoomAtPoint(...);
pendingZoom = null; }`. -/
noncomputable def zoomStep (rect : Rect) (s : CtrlState) : CtrlState :=
  match s.pendingZoom with
  | some z => { zoomAtPointS rect s z with pendingZoom := none }
  | none => s

/-- The second block of `processFrame`: `if (pendingPanX !== 0 || pendingPanY
!== 0) { translateX += pendingPanX; ...; pendingPanX = 0; pendingPanY = 0 }`. -/
noncomputable def panStep (s : CtrlState) : CtrlState :=
  if s.pendingPanX ≠ 0 ∨ s.pendingPanY ≠ 0 then
    { s with
        viewport :=
          { s.viewport with
              translateX := s.viewport.translateX + s.pendingPanX
              translateY := s.viewport.translateY + s.pendingPanY }
        pendingPanX := 0
        pendingPanY := 0 }
  else s

/-- `processFrame()`: the scheduled rAF callback.  Clears `rafId`, applies a
pending zoom first, then a pending pan, then repaints. -/
noncomputable def processFrame (rect : Rect) (s : CtrlState) : CtrlState :=
  applyTransform (panStep (zoomStep rect { s with rafId := none }))

/-- `scheduleFrame()`: requests an animation frame only when none is queued. -/
def scheduleFrame (s : CtrlState) : CtrlState :=
  match s.rafId with
  | none =>
      { s with
          rafId := some s.rafNext
          rafNext := s.rafNext + 1
          rafRequests := s.rafRequests + 1 }
  | some _ => s

/-- Intent detection of `handleWheel`:
`e.ctrlKey || e.metaKey || e.deltaMode === 1`. -/
def isZoomIntent (e : WheelEvt) : Bool :=
  e.ctrlKey || e.metaKey || e.deltaMode == 1

/-- The zoom coefficient: `e.ctrlKey ? 0.01 : 0.002` (pinch vs wheel). -/
noncomputable def zoomSpeed (e : WheelEvt) : ℝ :=
  if e.ctrlKey then 0.01 else 0.002

/-- The `pendingZoom` record written for a zoom-intent wheel event. -/
noncomputable def pendingOf (e : WheelEvt) : PendingZoom :=
  { delta := -e.deltaY * zoomSpeed e, centerX := e.clientX, centerY := e.clientY }

/-- `handleWheel(e)`: classifies the event, stores a pending zoom (replacing
any previous one) or accumulates a pending pan, then schedules a frame. -/
noncomputable def handleWheel (e : WheelEvt) (s : CtrlState) : CtrlState :=
  let s1 :=
    if isZoomIntent e then
      { s with pendingZoom := some (pendingOf e) }
    else
      { s with
          pendingPanX := s.pendingPanX - e.deltaX
          pendingPanY := s.pendingPanY - e.deltaY }
  scheduleFrame s1

/-- `handleWheelEnd()`: clears any previous debounce timer and arms a new
150ms save timer. -/
def handleWheelEnd (s : CtrlState) : CtrlState :=
  { s with saveTimeout := true }

/-- `handleWheelWithSave(e)`: the listener actually installed on the
container: `handleWheel(e); handleWheelEnd()`. -/
noncomputable def handleWheelWithSave (e : WheelEvt) (s : CtrlState) : CtrlState :=
  handleWheelEnd (handleWheel e s)

/-- `saveViewport({scale, translateX, translateY})`: persists the current
viewport into the singleton record. -/
def saveViewport (s : CtrlState) : CtrlState :=
  { s with storage := some s.viewport }

/-- `handleMouseDown(e)`: a primary-button press on the canvas background
starts a pan. -/
def handleMouseDownC (e : MouseEvt) (s : CtrlState) : CtrlState :=
  if e.button = 0 ∧ e.onBackground = true then
    { s with isDragging := true, dragStartX := e.clientX, dragStartY := e.clientY }
  else s

/-- `handleMouseMove(e)`: during a background pan the screen-space delta is
applied immediately (no rAF batching) and the node repainted. -/
def handleMouseMoveC (e : MouseEvt) (s : CtrlState) : CtrlState :=
  if s.isDragging then
    applyTransform
      { s with
          viewport :=
            { s.viewport with
                translateX := s.viewport.translateX + (e.clientX - s.dragStartX)
                translateY := s.viewport.translateY + (e.clientY - s.dragStartY) }
          dragStartX := e.clientX
          dragStartY := e.clientY }
  else s

/-- `handleMouseUp()`: ends a background pan and persists the viewport. -/
def handleMouseUpC (s : CtrlState) : CtrlState :=
  if s.isDragging then
    saveViewport { s with isDragging := false }
  else s

def initialViewport : Viewport := { scale := 1, translateX := 0, translateY := 0 }

/-- `init()`: loads the persisted viewport if one exists and repaints. -/
def init (s : CtrlState) : CtrlState :=
  match s.storage with
  | some v => applyTransform { s with viewport := v }
  | none => s

/-- `createCanvasController`: fresh closure state (viewport defaulted to
`{1,0,0}`), all five listeners installed, then `init()` from storage. -/
def createState (storage : Option Viewport) : CtrlState :=
  init
    { viewport := initialViewport
      pendingPanX := 0
      pendingPanY := 0
      pendingZoom := none
      rafId := none
      rafNext := 1
      rafRequests := 0
      applyCount := 0
      isDragging := false
      dragStartX := 0
      dragStartY := 0
      saveTimeout := false
      storage := storage
      wheelListener := true
      mousedownListener := true
      mousemoveListener := true
      mouseupListener := true
      contextmenuListener := true }

/-- `destroy()`: `if (rafId) cancelAnimationFrame(rafId)` (a JS truthiness
test on the id), `if (saveTimeout) clearTimeout(saveTimeout)`, then removal of
the five listeners the controller installed. -/
def destroy (s : CtrlState) : CtrlState :=
  let s1 :=
    match s.rafId with
    | some n => if n ≠ 0 then { s with rafId := none } else s
    | none => s
  let s2 := if s1.saveTimeout then { s1 with saveTimeout := false } else s1
  { s2 with
      wheelListener := false
      mousedownListener := false
      mousemoveListener := false
      mouseupListener := false
      contextmenuListener := false }

/-- The inputs the viewport controller reacts to.  `frame` is the browser
firing a scheduled rAF callback (a no-op when none is scheduled), `saveTimer`
is the debounce timer elapsing, and `restart` models ending the session and
creating a fresh controller against the same persisted storage. -/
inductive VEvent where
  | wheel (e : WheelEvt)
  | frame
  | mouseDown (e : MouseEvt)
  | mouseMove (e : MouseEvt)
  | mouseUp
  | saveTimer
  | restart

/-- One controller step per input event. -/
noncomputable def step (rect : Rect) (s : CtrlState) : VEvent → CtrlState
  | .wheel e => handleWheelWithSave e s
  | .frame =>
      match s.rafId with
      | some _ => processFrame rect s
      | none => s
  | .mouseDown e => handleMouseDownC e s
  | .mouseMove e => handleMouseMoveC e s
  | .mouseUp => handleMouseUpC s
  | .saveTimer => if s.saveTimeout then { saveViewport s with saveTimeout := false } else s
  | .restart => createState s.storage

/-- Execution from the very first controller construction (empty storage). -/
noncomputable def run (rect : Rect) (evs : List VEvent) : CtrlState :=
  evs.foldl (step rect) (createState none)

/-- The viewport invariant of the data model. -/
def ScaleOK (v : Viewport) : Prop :=
  MIN_SCALE ≤ v.scale ∧ v.scale ≤ MAX_SCALE

/-- Inductive invariant: the live viewport is in range and so is any
persisted record. -/
def Inv (s : CtrlState) : Prop :=
  ScaleOK s.viewport ∧ ∀ v, s.storage = some v → ScaleOK v

lemma scaleOK_initial : ScaleOK initialViewport := by
  constructor <;> norm_num [initialViewport, MIN_SCALE, MAX_SCALE]

lemma scaleOK_zoomAtPoint (rect : Rect) (v : Viewport) (d px py : ℝ) :
    ScaleOK (zoomAtPoint rect v d px py) := by
  unfold ScaleOK zoomAtPoint
  constructor
  · apply le_min
    · norm_num [MIN_SCALE, MAX_SCALE]
    · exact le_max_left _ _
  · exact min_le_left _ _

lemma inv_of_eq {s t : CtrlState} (hv : t.viewport = s.viewport)
    (hst : t.storage = s.storage) (h : Inv s) : Inv t := by
  refine ⟨hv ▸ h.1, fun v hvv => h.2 v (hst ▸ hvv)⟩

lemma handleWheelWithSave_viewport (e : WheelEvt) (s : CtrlState) :
    (handleWheelWithSave e s).viewport = s.viewport ∧
    (handleWheelWithSave e s).storage = s.storage := by
  unfold handleWheelWithSave handleWheelEnd handleWheel scheduleFrame
  by_cases hc : isZoomIntent e = true <;>
    rcases hr : s.rafId with _ | n <;> simp [hc, hr]

lemma inv_zoomStep (rect : Rect) (s : CtrlState) (h : Inv s) :
    Inv (zoomStep rect s) := by
  unfold zoomStep zoomAtPointS
  rcases hz : s.pendingZoom with _ | z
  · exact h
  · exact ⟨scaleOK_zoomAtPoint rect s.viewport z.delta z.centerX z.centerY,
      fun v hvv => h.2 v hvv⟩

lemma inv_panStep (s : CtrlState) (h : Inv s) : Inv (panStep s) := by
  unfold panStep
  split
  · exact ⟨h.1, fun v hvv => h.2 v hvv⟩
  · exact h

lemma inv_processFrame (rect : Rect) (s : CtrlState) (h : Inv s) :
    Inv (processFrame rect s) := by
  unfold processFrame applyTransform
  have h1 : Inv { s with rafId := none } := ⟨h.1, fun v hvv => h.2 v hvv⟩
  have h2 := inv_panStep _ (inv_zoomStep rect _ h1)
  exact ⟨h2.1, fun v hvv => h2.2 v hvv⟩

lemma inv_createState (st : Option Viewport) (h : ∀ v, st = some v → ScaleOK v) :
    Inv (createState st) := by
  rcases st with _ | v
  · refine ⟨?_, ?_⟩
    · simpa [createState, init] using scaleOK_initial
    · intro w hw
      simp [createState, init] at hw
  · refine ⟨?_, ?_⟩
    · simpa [createState, init, applyTransform] using h v rfl
    · intro w hw
      simp [createState, init, applyTransform] at hw
      exact hw ▸ h v rfl

lemma inv_step (rect : Rect) (s : CtrlState) (ev : VEvent) (h : Inv s) :
    Inv (step rect s ev) := by
  cases ev with
  | wheel e =>
      obtain ⟨hv, hst⟩ := handleWheelWithSave_viewport e s
      exact inv_of_eq hv hst h
  | frame =>
      rcases hr : s.rafId with _ | n <;> simp only [step, hr]
      · exact h
      · exact inv_processFrame rect s h
  | mouseDown e =>
      simp only [step]
      unfold handleMouseDownC
      split
      · exact ⟨h.1, fun v hvv => h.2 v hvv⟩
      · exact h
  | mouseMove e =>
      simp only [step]
      unfold handleMouseMoveC applyTransform
      split
      · exact ⟨h.1, fun v hvv => h.2 v hvv⟩
      · exact h
  | mouseUp =>
      simp only [step]
      unfold handleMouseUpC saveViewport
      split
      · refine ⟨h.1, ?_⟩
        intro v hvv
        have hv2 : s.viewport = v := by simpa using hvv
        exact hv2 ▸ h.1
      · exact h
  | saveTimer =>
      simp only [step]
      unfold saveViewport
      split
      · refine ⟨h.1, ?_⟩
        intro v hvv
        have hv2 : s.viewport = v := by simpa using hvv
        exact hv2 ▸ h.1
      · exact h
  | restart =>
      simp only [step]
      exact inv_createState s.storage h.2

/-- Claim C2: the viewport invariant `MIN_SCALE ≤ scale ≤ MAX_SCALE` (0.1–10)
holds after every operation of the viewport controller: starting from the
first controller construction (empty storage), any sequence of wheel inputs,
frame callbacks, background pans, debounce-timer fires, and session restarts
(re-initialisation from the persisted record) leaves the scale in range. -/
theorem scale_invariant_all_operations (rect : Rect) (evs : List VEvent) :
    MIN_SCALE ≤ (run rect evs).viewport.scale ∧
      (run rect evs).viewport.scale ≤ MAX_SCALE := by
  have hrun : ∀ (l : List VEvent) (s : CtrlState), Inv s → Inv (l.foldl (step rect) s) := by
    intro l
    induction l with
    | nil => exact fun s h => h
    | cons a l ih => exact fun s h => ih _ (inv_step rect s a h)
  exact (hrun evs _ (inv_createState none (by intro v hv; cases hv))).1

/-- N wheel events dispatched within one animation frame (each through the
installed listener `handleWheelWithSave`). -/
noncomputable def wheelBurst (s : CtrlState) (ws : List WheelEvt) : CtrlState :=
  ws.foldl (fun t e => handleWheelWithSave e t) s

/-- The pending-zoom record left by a scan of the burst: each zoom-intent
event overwrites the accumulator. -/
noncomputable def lastZoomFrom (acc : Option PendingZoom) (ws : List WheelEvt) :
    Option PendingZoom :=
  ws.foldl (fun a e => if isZoomIntent e then some (pendingOf e) else a) acc

/-- Total `deltaX` of the pan-classified events of a burst. -/
noncomputable def panSumX (ws : List WheelEvt) : ℝ :=
  ((ws.filter (fun e => !isZoomIntent e)).map WheelEvt.deltaX).sum

/-- Total `deltaY` of the pan-classified events of a burst. -/
noncomputable def panSumY (ws : List WheelEvt) : ℝ :=
  ((ws.filter (fun e => !isZoomIntent e)).map WheelEvt.deltaY).sum

/-- Applying a (possibly absent) pending zoom to a viewport. -/
noncomputable def zoomApply (rect : Rect) (oz : Option PendingZoom) (v : Viewport) : Viewport :=
  match oz with
  | some z => zoomAtPoint rect v z.delta z.centerX z.centerY
  | none => v

/-- Panning a viewport by the accumulated wheel deltas (the controller
subtracts raw deltas). -/
def panApply (dx dy : ℝ) (v : Viewport) : Viewport :=
  { v with
      translateX := v.translateX - dx
      translateY := v.translateY - dy }

lemma handleWheelWithSave_pend (e : WheelEvt) (s : CtrlState) :
    (handleWheelWithSave e s).pendingZoom =
      (if isZoomIntent e then some (pendingOf e) else s.pendingZoom) ∧
    (handleWheelWithSave e s).pendingPanX =
      (if isZoomIntent e then s.pendingPanX else s.pendingPanX - e.deltaX) ∧
    (handleWheelWithSave e s).pendingPanY =
      (if isZoomIntent e then s.pendingPanY else s.pendingPanY - e.deltaY) ∧
    (handleWheelWithSave e s).applyCount = s.applyCount := by
  unfold handleWheelWithSave handleWheelEnd handleWheel scheduleFrame
  by_cases hc : isZoomIntent e = true <;> rcases hr : s.rafId with _ | n <;> simp [hc, hr]

lemma handleWheelWithSave_raf_none (e : WheelEvt) (s : CtrlState) (h : s.rafId = none) :
    (handleWheelWithSave e s).rafId = some s.rafNext ∧
    (handleWheelWithSave e s).rafRequests = s.rafRequests + 1 ∧
    (handleWheelWithSave e s).rafNext = s.rafNext + 1 := by
  unfold handleWheelWithSave handleWheelEnd handleWheel scheduleFrame
  by_cases hc : isZoomIntent e = true <;> simp [hc, h]

lemma handleWheelWithSave_raf_some (e : WheelEvt) (s : CtrlState) (n : ℕ)
    (h : s.rafId = some n) :
    (handleWheelWithSave e s).rafId = some n ∧
    (handleWheelWithSave e s).rafRequests = s.rafRequests ∧
    (handleWheelWithSave e s).rafNext = s.rafNext := by
  unfold handleWheelWithSave handleWheelEnd handleWheel scheduleFrame
  by_cases hc : isZoomIntent e = true <;> simp [hc, h]

lemma wheelBurst_viewport (ws : List WheelEvt) : ∀ s : CtrlState,
    (wheelBurst s ws).viewport = s.viewport ∧
    (wheelBurst s ws).applyCount = s.applyCount := by
  induction ws with
  | nil => exact fun s => ⟨rfl, rfl⟩
  | cons e ws ih =>
      intro s
      have h1 := handleWheelWithSave_viewport e s
      have h2 := handleWheelWithSave_pend e s
      have h3 := ih (handleWheelWithSave e s)
      have hstep : wheelBurst s (e :: ws) = wheelBurst (handleWheelWithSave e s) ws := rfl
      rw [hstep]
      exact ⟨h3.1.trans h1.1, h3.2.trans h2.2.2.2⟩

lemma wheelBurst_pendingZoom (ws : List WheelEvt) : ∀ s : CtrlState,
    (wheelBurst s ws).pendingZoom = lastZoomFrom s.pendingZoom ws := by
  induction ws with
  | nil => exact fun s => rfl
  | cons e ws ih =>
      intro s
      have hstep : wheelBurst s (e :: ws) = wheelBurst (handleWheelWithSave e s) ws := rfl
      have htgt : lastZoomFrom s.pendingZoom (e :: ws) =
          lastZoomFrom (if isZoomIntent e then some (pendingOf e) else s.pendingZoom) ws := rfl
      rw [hstep, ih, (handleWheelWithSave_pend e s).1, htgt]

lemma panSum_cons (e : WheelEvt) (ws : List WheelEvt) :
    panSumX (e :: ws) = (if isZoomIntent e then 0 else e.deltaX) + panSumX ws ∧
    panSumY (e :: ws) = (if isZoomIntent e then 0 else e.deltaY) + panSumY ws := by
  by_cases hc : isZoomIntent e = true <;>
    simp [panSumX, panSumY, List.filter_cons, hc]

lemma wheelBurst_pan (ws : List WheelEvt) : ∀ s : CtrlState,
    (wheelBurst s ws).pendingPanX = s.pendingPanX - panSumX ws ∧
    (wheelBurst s ws).pendingPanY = s.pendingPanY - panSumY ws := by
  induction ws with
  | nil => intro s; constructor <;> simp [wheelBurst, panSumX, panSumY]
  | cons e ws ih =>
      intro s
      have hstep : wheelBurst s (e :: ws) = wheelBurst (handleWheelWithSave e s) ws := rfl
      have h2 := handleWheelWithSave_pend e s
      have h3 := ih (handleWheelWithSave e s)
      have hps := panSum_cons e ws
      rw [hstep]
      constructor
      · rw [h3.1, h2.2.1, hps.1]
        by_cases hc : isZoomIntent e = true <;> simp [hc] <;> ring
      · rw [h3.2, h2.2.2.1, hps.2]
        by_cases hc : isZoomIntent e = true <;> simp [hc] <;> ring

lemma wheelBurst_raf_some (ws : List WheelEvt) : ∀ (s : CtrlState) (n : ℕ),
    s.rafId = some n →
    (wheelBurst s ws).rafId = some n ∧
    (wheelBurst s ws).rafRequests = s.rafRequests := by
  induction ws with
  | nil => exact fun s n h => ⟨h, rfl⟩
  | cons e ws ih =>
      intro s n h
      have hstep : wheelBurst s (e :: ws) = wheelBurst (handleWheelWithSave e s) ws := rfl
      have h1 := handleWheelWithSave_raf_some e s n h
      have h3 := ih (handleWheelWithSave e s) n h1.1
      rw [hstep]
      exact ⟨h3.1, h3.2.trans h1.2.1⟩

lemma wheelBurst_raf (ws : List WheelEvt) (hw : ws ≠ []) (s : CtrlState)
    (h : s.rafId = none) :
    (∃ n, (wheelBurst s ws).rafId = some n) ∧
    (wheelBurst s ws).rafRequests = s.rafRequests + 1 := by
  cases ws with
  | nil => exact absurd rfl hw
  | cons e ws =>
      have hstep : wheelBurst s (e :: ws) = wheelBurst (handleWheelWithSave e s) ws := rfl
      have h1 := handleWheelWithSave_raf_none e s h
      have h3 := wheelBurst_raf_some ws (handleWheelWithSave e s) s.rafNext h1.1
      rw [hstep]
      exact ⟨⟨s.rafNext, h3.1⟩, h3.2.trans h1.2.1⟩

lemma zoomStep_fields (rect : Rect) (s : CtrlState) :
    (zoomStep rect s).viewport = zoomApply rect s.pendingZoom s.viewport ∧
    (zoomStep rect s).pendingPanX = s.pendingPanX ∧
    (zoomStep rect s).pendingPanY = s.pendingPanY ∧
    (zoomStep rect s).applyCount = s.applyCount := by
  unfold zoomStep zoomAtPointS zoomApply
  rcases hz : s.pendingZoom with _ | z <;> simp [hz]

lemma panStep_fields (s : CtrlState) :
    (panStep s).viewport =
      { s.viewport with
          translateX := s.viewport.translateX + s.pendingPanX
          translateY := s.viewport.translateY + s.pendingPanY } ∧
    (panStep s).applyCount = s.applyCount := by
  unfold panStep
  split
  · exact ⟨rfl, rfl⟩
  · rename_i hcond
    push_neg at hcond
    rw [hcond.1, hcond.2, add_zero, add_zero]
    exact ⟨rfl, rfl⟩

lemma processFrame_spec (rect : Rect) (s : CtrlState) :
    (processFrame rect s).viewport =
      { zoomApply rect s.pendingZoom s.viewport with
          translateX := (zoomApply rect s.pendingZoom s.viewport).translateX + s.pendingPanX
          translateY := (zoomApply rect s.pendingZoom s.viewport).translateY + s.pendingPanY } ∧
    (processFrame rect s).applyCount = s.applyCount + 1 := by
  unfold processFrame applyTransform
  have hz := zoomStep_fields rect { s with rafId := none }
  have hp := panStep_fields (zoomStep rect { s with rafId := none })
  constructor
  · rw [hp.1, hz.1, hz.2.1, hz.2.2.1]
  · rw [hp.2, hz.2.2.2]

/-- Claim C3 (amended): for a nonempty burst of wheel events arriving while
the controller is idle (no pendings, no queued callback), exactly one rAF
callback is requested for the whole burst, no transform application happens
during accumulation, and the single frame callback applies exactly one
transform whose viewport applies the *most recent* zoom-intent event's delta
and center first (earlier zoom deltas of the same frame are discarded) and
then the sum of all pan deltas on top. -/
theorem frame_batching_amended (rect : Rect) (s : CtrlState) (ws : List WheelEvt)
    (hz : s.pendingZoom = none) (hx : s.pendingPanX = 0) (hy : s.pendingPanY = 0)
    (hr : s.rafId = none) (hw : ws ≠ []) :
    (step rect (wheelBurst s ws) VEvent.frame).viewport =
      panApply (panSumX ws) (panSumY ws)
        (zoomApply rect (lastZoomFrom none ws) s.viewport) ∧
    (step rect (wheelBurst s ws) VEvent.frame).applyCount = s.applyCount + 1 ∧
    (wheelBurst s ws).applyCount = s.applyCount ∧
    (wheelBurst s ws).rafRequests = s.rafRequests + 1 := by
  obtain ⟨⟨n, hrid⟩, hreq⟩ := wheelBurst_raf ws hw s hr
  have hvp := wheelBurst_viewport ws s
  have hpz := wheelBurst_pendingZoom ws s
  have hpan := wheelBurst_pan ws s
  have hps := processFrame_spec rect (wheelBurst s ws)
  have hstep : step rect (wheelBurst s ws) VEvent.frame = processFrame rect (wheelBurst s ws) := by
    simp only [step, hrid]
  refine ⟨?_, ?_, hvp.2, hreq⟩
  · rw [hstep, hps.1, hpz, hz, hpan.1, hpan.2, hx, hy, hvp.1, zero_sub, zero_sub]
    unfold panApply
    rw [← sub_eq_add_neg, ← sub_eq_add_neg]
  · rw [hstep, hps.2, hvp.2]

/-- A trackpad pinch event: `ctrlKey` set, `deltaY = -100`, at screen origin. -/
noncomputable def pinchEvt : WheelEvt :=
  { ctrlKey := true, metaKey := false, deltaMode := 0, deltaX := 0, deltaY := -100,
    clientX := 0, clientY := 0 }

/-- A trackpad two-finger scroll event (pixel granularity, no modifier). -/
noncomputable def scrollEvt : WheelEvt :=
  { ctrlKey := false, metaKey := false, deltaMode := 0, deltaX := 3, deltaY := 4,
    clientX := 7, clientY := 8 }

def rect0 : Rect := { left := 0, top := 0 }

/-- The original claim's semantics: every one of the N deltas applied in
order, each zoom delta with its own `zoomAtPoint`. -/
noncomputable def perEventApply (rect : Rect) (v : Viewport) (ws : List WheelEvt) : Viewport :=
  ws.foldl
    (fun w e =>
      if isZoomIntent e then
        zoomAtPoint rect w (-e.deltaY * zoomSpeed e) e.clientX e.clientY
      else
        { w with
            translateX := w.translateX - e.deltaX
            translateY := w.translateY - e.deltaY })
    v

lemma zoomAtPoint_scale (rect : Rect) (v : Viewport) (d cx cy : ℝ) :
    (zoomAtPoint rect v d cx cy).scale =
      min MAX_SCALE (max MIN_SCALE (v.scale * Real.exp d)) := rfl

lemma zoomApply_scale (rect : Rect) (z : PendingZoom) (v : Viewport) :
    (zoomApply rect (some z) v).scale =
      min MAX_SCALE (max MIN_SCALE (v.scale * Real.exp z.delta)) := rfl

/-- Claim C3 is false as stated: two pinch zoom events (`ctrlKey`,
`deltaY = -100`, so delta `1` each) dispatched in one animation frame commit a
scale of `exp 1`, not the `exp 1 * exp 1` that applying both deltas in order
would give — the second pending zoom overwrites the first. -/
theorem frame_batching_claim_counterexample :
    (step rect0 (wheelBurst (createState none) [pinchEvt, pinchEvt]) VEvent.frame).viewport.scale ≠
      (perEventApply rect0 (createState none).viewport [pinchEvt, pinchEvt]).scale := by
  have hE1 : (2.7182818283 : ℝ) < Real.exp 1 := Real.exp_one_gt_d9
  have hE2 : Real.exp 1 < 2.7182818286 := Real.exp_one_lt_d9
  have hEmin : MIN_SCALE ≤ Real.exp 1 := by unfold MIN_SCALE; nlinarith
  have hEmax : Real.exp 1 ≤ MAX_SCALE := by unfold MAX_SCALE; nlinarith
  have hEEmin : MIN_SCALE ≤ Real.exp 1 * Real.exp 1 := by unfold MIN_SCALE; nlinarith
  have hEEmax : Real.exp 1 * Real.exp 1 ≤ MAX_SCALE := by unfold MAX_SCALE; nlinarith
  obtain ⟨⟨n, hrid⟩, _⟩ :=
    wheelBurst_raf [pinchEvt, pinchEvt] (by simp) (createState none) rfl
  have hstep : step rect0 (wheelBurst (createState none) [pinchEvt, pinchEvt]) VEvent.frame =
      processFrame rect0 (wheelBurst (createState none) [pinchEvt, pinchEvt]) := by
    simp only [step, hrid]
  have hps := processFrame_spec rect0 (wheelBurst (createState none) [pinchEvt, pinchEvt])
  have hpz := wheelBurst_pendingZoom [pinchEvt, pinchEvt] (createState none)
  have hvp := (wheelBurst_viewport [pinchEvt, pinchEvt] (createState none)).1
  have hzi : isZoomIntent pinchEvt = true := by simp [isZoomIntent, pinchEvt]
  have hlz : lastZoomFrom (createState none).pendingZoom [pinchEvt, pinchEvt] =
      some (pendingOf pinchEvt) := by
    simp [lastZoomFrom, hzi]
  have hdelta : (pendingOf pinchEvt).delta = 1 := by
    simp [pendingOf, pinchEvt, zoomSpeed]
    norm_num
  have hv0scale : (createState none).viewport.scale = 1 := rfl
  have hscale1 : (step rect0 (wheelBurst (createState none) [pinchEvt, pinchEvt])
      VEvent.frame).viewport.scale =
      (zoomApply rect0 (wheelBurst (createState none) [pinchEvt, pinchEvt]).pendingZoom
        (wheelBurst (createState none) [pinchEvt, pinchEvt]).viewport).scale := by
    rw [hstep, hps.1]
  -- left side: the committed scale is exp 1
  have hleft : (step rect0 (wheelBurst (createState none) [pinchEvt, pinchEvt])
      VEvent.frame).viewport.scale = Real.exp 1 := by
    rw [hscale1, hpz, hlz, zoomApply_scale, hvp, hdelta, hv0scale, one_mul,
        max_eq_right hEmin, min_eq_right hEmax]
  -- right side: the claim's per-event application gives exp 1 * exp 1
  have hdeltaE : -pinchEvt.deltaY * zoomSpeed pinchEvt = 1 := by
    simp [pinchEvt, zoomSpeed]
    norm_num
  have hfold : perEventApply rect0 (createState none).viewport [pinchEvt, pinchEvt] =
      zoomAtPoint rect0
        (zoomAtPoint rect0 (createState none).viewport
          (-pinchEvt.deltaY * zoomSpeed pinchEvt) pinchEvt.clientX pinchEvt.clientY)
        (-pinchEvt.deltaY * zoomSpeed pinchEvt) pinchEvt.clientX pinchEvt.clientY := by
    unfold perEventApply
    simp [hzi]
  have hright : (perEventApply rect0 (createState none).viewport [pinchEvt, pinchEvt]).scale =
      Real.exp 1 * Real.exp 1 := by
    rw [hfold, zoomAtPoint_scale, zoomAtPoint_scale, hdeltaE, hv0scale, one_mul,
        max_eq_right hEmin, min_eq_right hEmax,
        max_eq_right hEEmin, min_eq_right hEEmax]
  rw [hleft, hright]
  intro h
  nlinarith

/-- Witness for the amended frame-batching theorem: a single two-finger
scroll event from the freshly created controller pans the viewport by its
deltas at the next frame, with exactly one rAF request and one transform
application. -/
theorem frame_batching_amended_witness :
    ((createState none).pendingZoom = none ∧ (createState none).pendingPanX = 0 ∧
      (createState none).pendingPanY = 0 ∧ (createState none).rafId = none ∧
      ([scrollEvt] : List WheelEvt) ≠ []) ∧
    (step rect0 (wheelBurst (createState none) [scrollEvt]) VEvent.frame).viewport =
      panApply (panSumX [scrollEvt]) (panSumY [scrollEvt])
        (zoomApply rect0 (lastZoomFrom none [scrollEvt]) (createState none).viewport) ∧
    (step rect0 (wheelBurst (createState none) [scrollEvt]) VEvent.frame).applyCount =
      (createState none).applyCount + 1 ∧
    (wheelBurst (createState none) [scrollEvt]).applyCount = (createState none).applyCount ∧
    (wheelBurst (createState none) [scrollEvt]).rafRequests =
      (createState none).rafRequests + 1 := by
  refine ⟨⟨rfl, rfl, rfl, rfl, by simp⟩, ?_⟩
  exact frame_batching_amended rect0 (createState none) [scrollEvt] rfl rfl rfl rfl (by simp)

/-- Claim C7: the wheel handler classifies every event by exactly this
policy: an explicit zoom modifier (ctrl or meta) or a line-granularity delta
(`deltaMode = 1`) makes it a zoom (the event's delta and center become the
pending zoom); every other wheel event accumulates its deltas into the
pending pan instead. -/
theorem wheel_intent_classification (e : WheelEvt) (s : CtrlState) :
    (handleWheel e s).pendingZoom =
      (if e.ctrlKey = true ∨ e.metaKey = true ∨ e.deltaMode = 1
        then some (pendingOf e) else s.pendingZoom) ∧
    (handleWheel e s).pendingPanX =
      (if e.ctrlKey = true ∨ e.metaKey = true ∨ e.deltaMode = 1
        then s.pendingPanX else s.pendingPanX - e.deltaX) ∧
    (handleWheel e s).pendingPanY =
      (if e.ctrlKey = true ∨ e.metaKey = true ∨ e.deltaMode = 1
        then s.pendingPanY else s.pendingPanY - e.deltaY) := by
  have hb : (isZoomIntent e = true) ↔
      (e.ctrlKey = true ∨ e.metaKey = true ∨ e.deltaMode = 1) := by
    simp [isZoomIntent, or_assoc]
  by_cases hc : e.ctrlKey = true ∨ e.metaKey = true ∨ e.deltaMode = 1
  · have hz := hb.mpr hc
    unfold handleWheel scheduleFrame
    rcases hr : s.rafId with _ | n <;> simp [hz, hc, hr]
  · have hz : isZoomIntent e = false := by
      rcases Bool.eq_false_or_eq_true (isZoomIntent e) with h | h
      · exact absurd (hb.mp h) hc
      · exact h
    unfold handleWheel scheduleFrame
    rcases hr : s.rafId with _ | n <;> simp [hz, hc, hr]

/-- Well-formedness of the rAF bookkeeping: the browser hands out callback
ids starting at 1, so a stored id is never the falsy `0`. -/
def RafOK (s : CtrlState) : Prop :=
  1 ≤ s.rafNext ∧ ∀ n, s.rafId = some n → 1 ≤ n

lemma rafOK_handleWheelWithSave (e : WheelEvt) (s : CtrlState) (h : RafOK s) :
    RafOK (handleWheelWithSave e s) := by
  rcases hr : s.rafId with _ | n
  · obtain ⟨h1, h2, h3⟩ := handleWheelWithSave_raf_none e s hr
    refine ⟨by rw [h3]; omega, fun m hm => ?_⟩
    rw [h1] at hm
    injection hm with hmm
    have := h.1
    omega
  · obtain ⟨h1, h2, h3⟩ := handleWheelWithSave_raf_some e s n hr
    refine ⟨by rw [h3]; exact h.1, fun m hm => ?_⟩
    rw [h1] at hm
    injection hm with hmm
    exact hmm ▸ h.2 n hr

lemma processFrame_raf (rect : Rect) (s : CtrlState) :
    (processFrame rect s).rafId = none ∧ (processFrame rect s).rafNext = s.rafNext := by
  unfold processFrame applyTransform panStep zoomStep zoomAtPointS
  rcases hz : s.pendingZoom with _ | z <;> simp only [hz] <;> split <;> exact ⟨rfl, rfl⟩

lemma rafOK_createState (st : Option Viewport) : RafOK (createState st) := by
  rcases st with _ | v <;>
    exact ⟨le_refl 1, fun m hm => by simp [createState, init, applyTransform] at hm⟩

lemma rafOK_step (rect : Rect) (s : CtrlState) (ev : VEvent) (h : RafOK s) :
    RafOK (step rect s ev) := by
  cases ev with
  | wheel e => exact rafOK_handleWheelWithSave e s h
  | frame =>
      rcases hr : s.rafId with _ | n <;> simp only [step, hr]
      · exact h
      · obtain ⟨h1, h2⟩ := processFrame_raf rect s
        exact ⟨by rw [h2]; exact h.1, fun m hm => by rw [h1] at hm; cases hm⟩
  | mouseDown e =>
      simp only [step]
      unfold handleMouseDownC
      split
      · exact ⟨h.1, fun m hm => h.2 m hm⟩
      · exact h
  | mouseMove e =>
      simp only [step]
      unfold handleMouseMoveC applyTransform
      split
      · exact ⟨h.1, fun m hm => h.2 m hm⟩
      · exact h
  | mouseUp =>
      simp only [step]
      unfold handleMouseUpC saveViewport
      split
      · exact ⟨h.1, fun m hm => h.2 m hm⟩
      · exact h
  | saveTimer =>
      simp only [step]
      unfold saveViewport
      split
      · exact ⟨h.1, fun m hm => h.2 m hm⟩
      · exact h
  | restart =>
      simp only [step]
      exact rafOK_createState s.storage

lemma rafOK_run (rect : Rect) (evs : List VEvent) : RafOK (run rect evs) := by
  have hrun : ∀ (l : List VEvent) (s : CtrlState), RafOK s → RafOK (l.foldl (step rect) s) := by
    intro l
    induction l with
    | nil => exact fun s h => h
    | cons a l ih => exact fun s h => ih _ (rafOK_step rect s a h)
  exact hrun evs _ (rafOK_createState none)

lemma destroy_clean (s : CtrlState) (h : RafOK s) :
    (destroy s).rafId = none ∧ (destroy s).saveTimeout = false ∧
    (destroy s).wheelListener = false ∧ (destroy s).mousedownListener = false ∧
    (destroy s).mousemoveListener = false ∧ (destroy s).mouseupListener = false ∧
    (destroy s).contextmenuListener = false := by
  rcases hr : s.rafId with _ | n
  · by_cases ht : s.saveTimeout = true <;> simp [destroy, hr, ht]
  · have hn : n ≠ 0 := by
      have := h.2 n hr
      omega
    by_cases ht : s.saveTimeout = true <;> simp [destroy, hr, hn, ht]

end CanvasCtrl

namespace DragCtrl

/-- Listener bookkeeping of `createDragHandler`: whether the two window-level
handlers installed at construction are attached, the ids of registered
elements still carrying the `mousedown` handler installed by `register`, and
the keys of the `registeredElements` map. -/
structure ListenerState where
  windowMousemove : Bool
  windowMouseup : Bool
  elementMousedown : List String
  registeredKeys : List String
deriving DecidableEq

/-- State right after `createDragHandler` returns: both window listeners
attached, nothing registered. -/
def create : ListenerState :=
  { windowMousemove := true, windowMouseup := true,
    elementMousedown := [], registeredKeys := [] }

/-- `register(element, cardId)`: attaches a `mousedown` handler to the
element and records the id in the map. -/
def register (s : ListenerState) (cardId : String) : ListenerState :=
  { s with
      elementMousedown := cardId :: s.elementMousedown
      registeredKeys := cardId :: s.registeredKeys }

/-- `unregister(cardId)`: when the id is in the map, removes the element's
`mousedown` handler and drops the entry; otherwise a no-op. -/
def unregister (s : ListenerState) (cardId : String) : ListenerState :=
  if cardId ∈ s.registeredKeys then
    { s with
        elementMousedown := s.elementMousedown.erase cardId
        registeredKeys := s.registeredKeys.erase cardId }
  else s

/-- `destroy()`: removes the two window listeners and clears the map.  The
code never calls `removeEventListener` on the registered elements here. -/
def destroy (s : ListenerState) : ListenerState :=
  { s with windowMousemove := false, windowMouseup := false, registeredKeys := [] }

/-- The live visual transform of a card's node (`translate3d(x, y, 0)`). -/
structure NodePos where
  x : ℚ
  y : ℚ
deriving DecidableEq

/-- The drag-gesture closure state of `createDragHandler`.  `currentElement`
is tracked jointly with `currentCardId`: the source sets and clears both
together. -/
structure GestureState where
  isDragging : Bool
  currentCardId : Option String
  startX : ℚ
  startY : ℚ
  initialTransformX : ℚ
  initialTransformY : ℚ
deriving DecidableEq

/-- The node under manipulation plus the commits emitted so far through
`onDragEnd`. -/
structure DragWorld where
  gesture : GestureState
  node : NodePos
  commits : List (String × ℚ × ℚ)
deriving DecidableEq

/-- `parseTransform(el)`: reads the translation (`m41`, `m42`) back out of the
node's computed transform. -/
def parseTransform (n : NodePos) : ℚ × ℚ := (n.x, n.y)

def idleGesture : GestureState :=
  { isDragging := false, currentCardId := none, startX := 0, startY := 0,
    initialTransformX := 0, initialTransformY := 0 }

/-- `handleMouseDown(e, cardId, element)`: primary button only; snapshots the
pointer's world position (`client / scale`) and the node's parsed transform. -/
def handleMouseDownD (w : DragWorld) (cardId : String) (button : ℕ)
    (scale clientX clientY : ℚ) : DragWorld :=
  if button ≠ 0 then w
  else
    { w with
        gesture :=
          { isDragging := true
            currentCardId := some cardId
            startX := clientX / scale
            startY := clientY / scale
            initialTransformX := (parseTransform w.node).1
            initialTransformY := (parseTransform w.node).2 } }

/-- `handleMouseMove(e)`: writes `initial + (pointer / scale - start)`
directly to the node's transform; a no-op when no gesture is active. -/
def handleMouseMoveD (w : DragWorld) (scale clientX clientY : ℚ) : DragWorld :=
  if w.gesture.isDragging = true ∧ w.gesture.currentCardId.isSome = true then
    { w with
        node :=
          { x := w.gesture.initialTransformX + (clientX / scale - w.gesture.startX)
            y := w.gesture.initialTransformY + (clientY / scale - w.gesture.startY) } }
  else w

/-- `handleMouseUp()`: parses the final transform back out of the node,
reports it once through `onDragEnd`, and clears the gesture. -/
def handleMouseUpD (w : DragWorld) : DragWorld :=
  match w.gesture.isDragging, w.gesture.currentCardId with
  | true, some cid =>
      { w with
          commits :=
            w.commits ++ [(cid, (parseTransform w.node).1, (parseTransform w.node).2)]
          gesture := { w.gesture with isDragging := false, currentCardId := none } }
  | _, _ => w

/-- A full drag gesture at constant viewport scale: primary-button
pointer-down, a list of pointer-moves, pointer-up. -/
def dragGesture (cardId : String) (node0 : NodePos) (scale : ℚ)
    (downX downY : ℚ) (moves : List (ℚ × ℚ)) : DragWorld :=
  handleMouseUpD
    (moves.foldl (fun w m => handleMouseMoveD w scale m.1 m.2)
      (handleMouseDownD { gesture := idleGesture, node := node0, commits := [] }
        cardId 0 scale downX downY))

lemma dragMoves_fields (scale : ℚ) (ms : List (ℚ × ℚ)) : ∀ w : DragWorld,
    (ms.foldl (fun w m => handleMouseMoveD w scale m.1 m.2) w).gesture = w.gesture ∧
    (ms.foldl (fun w m => handleMouseMoveD w scale m.1 m.2) w).commits = w.commits := by
  induction ms with
  | nil => exact fun w => ⟨rfl, rfl⟩
  | cons m ms ih =>
      intro w
      have h1 : (handleMouseMoveD w scale m.1 m.2).gesture = w.gesture ∧
          (handleMouseMoveD w scale m.1 m.2).commits = w.commits := by
        unfold handleMouseMoveD
        split <;> exact ⟨rfl, rfl⟩
      have h3 := ih (handleMouseMoveD w scale m.1 m.2)
      exact ⟨h3.1.trans h1.1, h3.2.trans h1.2⟩

/-- Claim C6: a drag gesture at constant scale `s` commits exactly once, at
pointer-up, reporting `(x0 + (endX - downX)/s, y0 + (endY - downY)/s)` where
`(x0, y0)` is the translation parsed from the node at pointer-down; a gesture
with no pointer-move commits exactly the pre-drag position; and the item at
world `(100,100)` dragged by `(50,-20)` at scale 1 commits `(150,80)`. -/
theorem drag_commit_correct (cardId : String) (x0 y0 scale downX downY ex ey : ℚ)
    (ms : List (ℚ × ℚ)) :
    (dragGesture cardId ⟨x0, y0⟩ scale downX downY (ms ++ [(ex, ey)])).commits =
      [(cardId, x0 + (ex - downX) / scale, y0 + (ey - downY) / scale)] ∧
    (dragGesture cardId ⟨x0, y0⟩ scale downX downY []).commits = [(cardId, x0, y0)] ∧
    (dragGesture "c" ⟨100, 100⟩ 1 0 0 [(50, -20)]).commits = [("c", 150, 80)] := by
  refine ⟨?_, ?_, ?_⟩
  · unfold dragGesture
    rw [List.foldl_append]
    have hdown : handleMouseDownD
        { gesture := idleGesture, node := ⟨x0, y0⟩, commits := [] } cardId 0 scale downX downY =
        { gesture :=
            { isDragging := true, currentCardId := some cardId,
              startX := downX / scale, startY := downY / scale,
              initialTransformX := x0, initialTransformY := y0 }
          node := ⟨x0, y0⟩
          commits := [] } := by
      simp [handleMouseDownD, parseTransform]
    rw [hdown]
    have hg := (dragMoves_fields scale ms
      { gesture :=
          { isDragging := true, currentCardId := some cardId,
            startX := downX / scale, startY := downY / scale,
            initialTransformX := x0, initialTransformY := y0 }
        node := ⟨x0, y0⟩
        commits := [] }).1
    have hc := (dragMoves_fields scale ms
      { gesture :=
          { isDragging := true, currentCardId := some cardId,
            startX := downX / scale, startY := downY / scale,
            initialTransformX := x0, initialTransformY := y0 }
        node := ⟨x0, y0⟩
        commits := [] }).2
    generalize hW : List.foldl (fun w m => handleMouseMoveD w scale m.1 m.2)
      { gesture :=
          { isDragging := true, currentCardId := some cardId,
            startX := downX / scale, startY := downY / scale,
            initialTransformX := x0, initialTransformY := y0 }
        node := ⟨x0, y0⟩
        commits := [] } ms = W
    rw [hW] at hg hc
    show (handleMouseUpD (handleMouseMoveD W scale ex ey)).commits = _
    unfold handleMouseMoveD handleMouseUpD
    simp [hg, hc, parseTransform, div_sub_div_same]
  · unfold dragGesture
    simp [handleMouseDownD, handleMouseUpD, parseTransform]
  · norm_num [dragGesture, handleMouseDownD, handleMouseMoveD, handleMouseUpD,
      parseTransform, idleGesture]

/-- Claim C9 is false as stated: after registering a card and then calling
the drag controller's `destroy()`, the `mousedown` handler installed on the
card's element by `register` is still attached — `destroy` removes only the
window-level listeners and clears the map. -/
theorem destroy_claim_counterexample :
    (DragCtrl.destroy (DragCtrl.register DragCtrl.create "a")).elementMousedown ≠ [] := by
  decide

end DragCtrl

/-- Claim C9 (amended): the viewport controller's `destroy()` leaves no
scheduled rAF callback, no pending debounce timer, and none of its five
listeners attached, in every reachable state; the drag controller's
`destroy()` removes its window-level `mousemove`/`mouseup` listeners and
clears its registry, but leaves the per-element `mousedown` handlers
installed by `register` attached (they are removed only by `unregister`). -/
theorem destroy_behavior_amended :
    (∀ (rect : CanvasCtrl.Rect) (evs : List CanvasCtrl.VEvent),
      (CanvasCtrl.destroy (CanvasCtrl.run rect evs)).rafId = none ∧
      (CanvasCtrl.destroy (CanvasCtrl.run rect evs)).saveTimeout = false ∧
      (CanvasCtrl.destroy (CanvasCtrl.run rect evs)).wheelListener = false ∧
      (CanvasCtrl.destroy (CanvasCtrl.run rect evs)).mousedownListener = false ∧
      (CanvasCtrl.destroy (CanvasCtrl.run rect evs)).mousemoveListener = false ∧
      (CanvasCtrl.destroy (CanvasCtrl.run rect evs)).mouseupListener = false ∧
      (CanvasCtrl.destroy (CanvasCtrl.run rect evs)).contextmenuListener = false) ∧
    (∀ s : DragCtrl.ListenerState,
      (DragCtrl.destroy s).windowMousemove = false ∧
      (DragCtrl.destroy s).windowMouseup = false ∧
      (DragCtrl.destroy s).registeredKeys = [] ∧
      (DragCtrl.destroy s).elementMousedown = s.elementMousedown) := by
  constructor
  · intro rect evs
    exact CanvasCtrl.destroy_clean (CanvasCtrl.run rect evs) (CanvasCtrl.rafOK_run rect evs)
  · intro s
    exact ⟨rfl, rfl, rfl, rfl⟩

namespace ResizeCtrl

/-- The four corner handles of the corner-aware resize controller. -/
inductive Corner where
  | tl
  | tr
  | bl
  | br
deriving DecidableEq

/-- The geometry written to the node on a pointer-move: `style.width`,
`style.height` and the `translate3d` transform. -/
structure Geom where
  x : ℚ
  y : ℚ
  w : ℚ
  h : ℚ
deriving DecidableEq

/-- The gesture snapshot captured by `handleResizeStart`: pointer start in
world units, the card's parsed transform and measured size, the active
corner, and the captured image size if the card embeds an image. -/
structure ResizeState where
  startX : ℚ
  startY : ℚ
  initialX : ℚ
  initialY : ℚ
  initialWidth : ℚ
  initialHeight : ℚ
  activeHandle : Corner
  imageNaturalSize : Option (ℚ × ℚ)
deriving DecidableEq

def MIN_W : ℚ := 60

def MIN_H : ℚ := 30

/-- `handleMouseMove(e)` of the corner-aware variant: the geometry written to
the node for the active corner, from the gesture snapshot and the current
pointer position. -/
def handleMouseMoveR (st : ResizeState) (scale clientX clientY : ℚ) : Geom :=
  let mouseX := clientX / scale
  let mouseY := clientY / scale
  let dx := mouseX - st.startX
  let dy := mouseY - st.startY
  match st.activeHandle with
  | Corner.br =>
      { x := st.initialX, y := st.initialY
        w := max MIN_W (st.initialWidth + dx)
        h := max MIN_H (st.initialHeight + dy) }
  | Corner.bl =>
      let newWidth := max MIN_W (st.initialWidth - dx)
      { x := st.initialX + (st.initialWidth - newWidth), y := st.initialY
        w := newWidth
        h := max MIN_H (st.initialHeight + dy) }
  | Corner.tr =>
      let newHeight := max MIN_H (st.initialHeight - dy)
      { x := st.initialX, y := st.initialY + (st.initialHeight - newHeight)
        w := max MIN_W (st.initialWidth + dx)
        h := newHeight }
  | Corner.tl =>
      let newWidth := max MIN_W (st.initialWidth - dx)
      let newHeight := max MIN_H (st.initialHeight - dy)
      { x := st.initialX + (st.initialWidth - newWidth)
        y := st.initialY + (st.initialHeight - newHeight)
        w := newWidth
        h := newHeight }

/-- An `img.card-image` DOM element: its intrinsic (natural) size and its
current layout size (`HTMLImageElement.width`/`.height`). -/
structure ImgElement where
  naturalWidth : ℚ
  naturalHeight : ℚ
  width : ℚ
  height : ℚ
deriving DecidableEq

/-- Lines 43–51 of `handleResizeStart`: `imageNaturalSize = { w: img.width,
h: img.height }` — the *layout* size properties of the element. -/
def captureImageSize (img : Option ImgElement) : Option (ℚ × ℚ) :=
  img.map (fun i => (i.width, i.height))

/-- Lines 153–157 of `handleMouseMove`: the per-axis factor written to the
image's transform, `newSize / imageNaturalSize` per axis. -/
def imageScale (ns : Option (ℚ × ℚ)) (newWidth newHeight : ℚ) : Option (ℚ × ℚ) :=
  ns.map (fun n => (newWidth / n.1, newHeight / n.2))

/-- Claim C4: for every gesture snapshot and pointer position, each corner
handle leaves the world coordinate of its anchor (opposite) corner unchanged,
including when the minimum-size clamp fires: `br` keeps `(x, y)`, `bl` keeps
`(x + w, y)`, `tr` keeps `(x, y + h)`, `tl` keeps `(x + w, y + h)`. -/
theorem resize_anchor_invariance (sx sy ix iy iw ih : ℚ) (ns : Option (ℚ × ℚ))
    (scale cx cy : ℚ) :
    ((handleMouseMoveR ⟨sx, sy, ix, iy, iw, ih, Corner.br, ns⟩ scale cx cy).x = ix ∧
      (handleMouseMoveR ⟨sx, sy, ix, iy, iw, ih, Corner.br, ns⟩ scale cx cy).y = iy) ∧
    ((handleMouseMoveR ⟨sx, sy, ix, iy, iw, ih, Corner.bl, ns⟩ scale cx cy).x +
        (handleMouseMoveR ⟨sx, sy, ix, iy, iw, ih, Corner.bl, ns⟩ scale cx cy).w = ix + iw ∧
      (handleMouseMoveR ⟨sx, sy, ix, iy, iw, ih, Corner.bl, ns⟩ scale cx cy).y = iy) ∧
    ((handleMouseMoveR ⟨sx, sy, ix, iy, iw, ih, Corner.tr, ns⟩ scale cx cy).x = ix ∧
      (handleMouseMoveR ⟨sx, sy, ix, iy, iw, ih, Corner.tr, ns⟩ scale cx cy).y +
        (handleMouseMoveR ⟨sx, sy, ix, iy, iw, ih, Corner.tr, ns⟩ scale cx cy).h = iy + ih) ∧
    ((handleMouseMoveR ⟨sx, sy, ix, iy, iw, ih, Corner.tl, ns⟩ scale cx cy).x +
        (handleMouseMoveR ⟨sx, sy, ix, iy, iw, ih, Corner.tl, ns⟩ scale cx cy).w = ix + iw ∧
      (handleMouseMoveR ⟨sx, sy, ix, iy, iw, ih, Corner.tl, ns⟩ scale cx cy).y +
        (handleMouseMoveR ⟨sx, sy, ix, iy, iw, ih, Corner.tl, ns⟩ scale cx cy).h = iy + ih) := by
  refine ⟨⟨rfl, rfl⟩, ⟨?_, rfl⟩, ⟨rfl, ?_⟩, ⟨?_, ?_⟩⟩ <;>
    simp only [handleMouseMoveR] <;> ring

/-- Claim C5: every resize move reports `w ≥ 60` and `h ≥ 30`; a pointer
delta that would compute a dimension below its floor reports exactly the
floor; for handles whose anchor is not the top-left corner the position on
the adjusted axis is recomputed from the clamped size; and the scenario: item
of size `(200,100)` at `(0,0)`, bottom-right resize with pointer delta
`(30,-200)` at scale 1, reports width 230, height 30, position `(0,0)`. -/
theorem resize_min_size_floors (sx sy ix iy iw ih : ℚ) (ns : Option (ℚ × ℚ))
    (scale cx cy : ℚ) :
    (∀ c : Corner,
      60 ≤ (handleMouseMoveR ⟨sx, sy, ix, iy, iw, ih, c, ns⟩ scale cx cy).w ∧
      30 ≤ (handleMouseMoveR ⟨sx, sy, ix, iy, iw, ih, c, ns⟩ scale cx cy).h) ∧
    (iw + (cx / scale - sx) < 60 →
      (handleMouseMoveR ⟨sx, sy, ix, iy, iw, ih, Corner.br, ns⟩ scale cx cy).w = 60) ∧
    (ih + (cy / scale - sy) < 30 →
      (handleMouseMoveR ⟨sx, sy, ix, iy, iw, ih, Corner.br, ns⟩ scale cx cy).h = 30) ∧
    ((handleMouseMoveR ⟨sx, sy, ix, iy, iw, ih, Corner.bl, ns⟩ scale cx cy).x =
        ix + (iw - (handleMouseMoveR ⟨sx, sy, ix, iy, iw, ih, Corner.bl, ns⟩ scale cx cy).w) ∧
      (iw - (cx / scale - sx) < 60 →
        (handleMouseMoveR ⟨sx, sy, ix, iy, iw, ih, Corner.bl, ns⟩ scale cx cy).w = 60)) ∧
    ((handleMouseMoveR ⟨sx, sy, ix, iy, iw, ih, Corner.tr, ns⟩ scale cx cy).y =
        iy + (ih - (handleMouseMoveR ⟨sx, sy, ix, iy, iw, ih, Corner.tr, ns⟩ scale cx cy).h) ∧
      (ih - (cy / scale - sy) < 30 →
        (handleMouseMoveR ⟨sx, sy, ix, iy, iw, ih, Corner.tr, ns⟩ scale cx cy).h = 30)) ∧
    ((handleMouseMoveR ⟨sx, sy, ix, iy, iw, ih, Corner.tl, ns⟩ scale cx cy).x =
        ix + (iw - (handleMouseMoveR ⟨sx, sy, ix, iy, iw, ih, Corner.tl, ns⟩ scale cx cy).w) ∧
      (handleMouseMoveR ⟨sx, sy, ix, iy, iw, ih, Corner.tl, ns⟩ scale cx cy).y =
        iy + (ih - (handleMouseMoveR ⟨sx, sy, ix, iy, iw, ih, Corner.tl, ns⟩ scale cx cy).h)) ∧
    ((handleMouseMoveR ⟨0, 0, 0, 0, 200, 100, Corner.br, none⟩ 1 30 (-200)).x = 0 ∧
      (handleMouseMoveR ⟨0, 0, 0, 0, 200, 100, Corner.br, none⟩ 1 30 (-200)).y = 0 ∧
      (handleMouseMoveR ⟨0, 0, 0, 0, 200, 100, Corner.br, none⟩ 1 30 (-200)).w = 230 ∧
      (handleMouseMoveR ⟨0, 0, 0, 0, 200, 100, Corner.br, none⟩ 1 30 (-200)).h = 30) := by
  refine ⟨?_, ?_, ?_, ⟨rfl, ?_⟩, ⟨rfl, ?_⟩, ⟨rfl, rfl⟩, ?_⟩
  · intro c
    cases c <;>
      constructor <;>
      simp only [handleMouseMoveR, MIN_W, MIN_H] <;>
      exact le_max_left _ _
  · intro h
    simp only [handleMouseMoveR, MIN_W]
    exact max_eq_left (le_of_lt h)
  · intro h
    simp only [handleMouseMoveR, MIN_H]
    exact max_eq_left (le_of_lt h)
  · intro h
    simp only [handleMouseMoveR, MIN_W]
    exact max_eq_left (by linarith)
  · intro h
    simp only [handleMouseMoveR, MIN_H]
    exact max_eq_left (by linarith)
  · refine ⟨rfl, rfl, ?_, ?_⟩ <;>
      norm_num [handleMouseMoveR, MIN_W, MIN_H, max_def]

/-- Witness for the minimum-size floors: the scenario delta `(30, -200)` on a
`(200,100)` card would compute height `-100 < 30`, and the reported height is
exactly the floor 30. -/
theorem resize_min_size_floors_witness :
    ((100 : ℚ) + ((-200) / 1 - 0) < 30) ∧
    (handleMouseMoveR ⟨0, 0, 0, 0, 200, 100, Corner.br, none⟩ 1 30 (-200)).h = 30 :=
  ⟨by norm_num,
    (resize_min_size_floors 0 0 0 0 200 100 none 1 30 (-200)).2.2.1 (by norm_num)⟩

def imgEx : ImgElement :=
  { naturalWidth := 800, naturalHeight := 600, width := 200, height := 100 }

/-- Claim C8 is contradicted by the code: `handleResizeStart` stores
`img.width`/`img.height` — the element's *layout* size — although its own
comment says to use `naturalWidth`/`naturalHeight` and the spec requires the
natural (unscaled) size.  For an image of natural size `800×600` laid out at
`200×100`, the captured size is `(200, 100)`, and a move to container size
`400×300` writes the factor `(2, 3)` instead of the natural-size-based
`(1/2, 1/2)`. -/
theorem image_capture_uses_layout_size :
    captureImageSize (some imgEx) = some (200, 100) ∧
    ((200 : ℚ), (100 : ℚ)) ≠ (imgEx.naturalWidth, imgEx.naturalHeight) ∧
    imageScale (captureImageSize (some imgEx)) 400 300 = some (2, 3) ∧
    imageScale (some (imgEx.naturalWidth, imgEx.naturalHeight)) 400 300 =
      some (1 / 2, 1 / 2) := by
  refine ⟨rfl, ?_, ?_, ?_⟩
  · norm_num [imgEx]
  · norm_num [imageScale, captureImageSize, imgEx]
  · norm_num [imageScale, imgEx]

end ResizeCtrl

namespace SimpleResize

/-- The visual state of a card node: its transform translation and its style
width/height in world units. -/
structure Node where
  tx : ℚ
  ty : ℚ
  w : ℚ
  h : ℚ
deriving DecidableEq

/-- `getBoundingClientRect().width` of a node inside the scaled transform
container. -/
def boundingWidth (n : Node) (scale : ℚ) : ℚ := n.w * scale

/-- `getBoundingClientRect().height` of a node inside the scaled transform
container. -/
def boundingHeight (n : Node) (scale : ℚ) : ℚ := n.h * scale

/-- The gesture closure state of the simple (bottom-right-only) resize
variant. -/
structure RState where
  isResizing : Bool
  currentCardId : Option String
  startX : ℚ
  startY : ℚ
  initialWidth : ℚ
  initialHeight : ℚ
deriving DecidableEq

/-- The operations the host's commit callback can invoke on the card store.
The deployed wiring (`Canvas.tsx`) passes `(cardId, w, h) =>
updateCardSize(cardId, w, h)` as `onResizeEnd`. -/
inductive StoreOp where
  | updateCardSize (cardId : String) (w h : ℚ)
  | updateCardPosition (cardId : String) (x y : ℚ)
deriving DecidableEq

/-- A node under resize plus the store operations committed so far. -/
structure World where
  st : RState
  node : Node
  ops : List StoreOp
deriving DecidableEq

def idleR : RState :=
  { isResizing := false, currentCardId := none, startX := 0, startY := 0,
    initialWidth := 0, initialHeight := 0 }

/-- `handleResizeStart(e, cardId, cardElement)`: snapshots the pointer in
world units and the measured card size (`rect / scale`). -/
def handleResizeStartS (w : World) (cardId : String) (scale cx cy : ℚ) : World :=
  { w with
      st :=
        { isResizing := true
          currentCardId := some cardId
          startX := cx / scale
          startY := cy / scale
          initialWidth := boundingWidth w.node scale / scale
          initialHeight := boundingHeight w.node scale / scale } }

/-- `handleMouseMove(e)` of the simple variant: writes
`max(100, initialWidth + dx)` and `max(50, initialHeight + dy)` to the node's
style; the transform is never touched. -/
def handleMouseMoveS (wd : World) (scale cx cy : ℚ) : World :=
  if wd.st.isResizing = true ∧ wd.st.currentCardId.isSome = true then
    { wd with
        node :=
          { wd.node with
              w := max 100 (wd.st.initialWidth + (cx / scale - wd.st.startX))
              h := max 50 (wd.st.initialHeight + (cy / scale - wd.st.startY)) } }
  else wd

/-- `handleMouseUp()` of the simple variant: measures the node once more and
commits `(cardId, w, h)` through `onResizeEnd`, which the host wires to
`updateCardSize` only. -/
def handleMouseUpS (wd : World) (scale : ℚ) : World :=
  match wd.st.isResizing, wd.st.currentCardId with
  | true, some cid =>
      { wd with
          ops := wd.ops ++
            [StoreOp.updateCardSize cid (boundingWidth wd.node scale / scale)
              (boundingHeight wd.node scale / scale)]
          st := { wd.st with isResizing := false, currentCardId := none } }
  | _, _ => wd

/-- `register(cardElement, cardId)` of the simple variant appends exactly one
`.resize-handle` child per call. -/
def registerS (handles : String → ℕ) (cardId : String) : String → ℕ :=
  fun c => if c = cardId then handles c + 1 else handles c

/-- A full resize gesture of the simple variant at constant viewport scale:
handle pointer-down, a list of pointer-moves, pointer-up. -/
def resizeGesture (cardId : String) (n0 : Node) (scale sx sy : ℚ)
    (moves : List (ℚ × ℚ)) : World :=
  handleMouseUpS
    (moves.foldl (fun w m => handleMouseMoveS w scale m.1 m.2)
      (handleResizeStartS { st := idleR, node := n0, ops := [] } cardId scale sx sy))
    scale

lemma resizeMoves_fields (scale : ℚ) (ms : List (ℚ × ℚ)) : ∀ w : World,
    (ms.foldl (fun w m => handleMouseMoveS w scale m.1 m.2) w).st = w.st ∧
    (ms.foldl (fun w m => handleMouseMoveS w scale m.1 m.2) w).ops = w.ops ∧
    (ms.foldl (fun w m => handleMouseMoveS w scale m.1 m.2) w).node.tx = w.node.tx ∧
    (ms.foldl (fun w m => handleMouseMoveS w scale m.1 m.2) w).node.ty = w.node.ty := by
  induction ms with
  | nil => exact fun w => ⟨rfl, rfl, rfl, rfl⟩
  | cons m ms ih =>
      intro w
      have h1 : (handleMouseMoveS w scale m.1 m.2).st = w.st ∧
          (handleMouseMoveS w scale m.1 m.2).ops = w.ops ∧
          (handleMouseMoveS w scale m.1 m.2).node.tx = w.node.tx ∧
          (handleMouseMoveS w scale m.1 m.2).node.ty = w.node.ty := by
        unfold handleMouseMoveS
        split <;> exact ⟨rfl, rfl, rfl, rfl⟩
      have h3 := ih (handleMouseMoveS w scale m.1 m.2)
      exact ⟨h3.1.trans h1.1, h3.2.1.trans h1.2.1, h3.2.2.1.trans h1.2.2.1,
        h3.2.2.2.trans h1.2.2.2⟩

/-- Claim C10: a gesture of the deployed (simple) resize variant never
touches the node's transform, commits exactly one store operation — an
`updateCardSize` carrying only `(cardId, w, h)`, never a position — with the
size clamped to the floors `w ≥ 100`, `h ≥ 50`; every single pointer-move
also leaves the transform untouched; and `register` installs exactly one
handle per card. -/
theorem deployed_resize_commits_size_only (cardId : String)
    (tx ty w0 h0 scale sx sy ex ey : ℚ) (ms : List (ℚ × ℚ)) (hs : scale ≠ 0) :
    (resizeGesture cardId ⟨tx, ty, w0, h0⟩ scale sx sy (ms ++ [(ex, ey)])).node.tx = tx ∧
    (resizeGesture cardId ⟨tx, ty, w0, h0⟩ scale sx sy (ms ++ [(ex, ey)])).node.ty = ty ∧
    (resizeGesture cardId ⟨tx, ty, w0, h0⟩ scale sx sy (ms ++ [(ex, ey)])).ops =
      [StoreOp.updateCardSize cardId (max 100 (w0 + (ex - sx) / scale))
        (max 50 (h0 + (ey - sy) / scale))] ∧
    (∀ op ∈ (resizeGesture cardId ⟨tx, ty, w0, h0⟩ scale sx sy (ms ++ [(ex, ey)])).ops,
      ∃ c ww hh, op = StoreOp.updateCardSize c ww hh ∧ 100 ≤ ww ∧ 50 ≤ hh) ∧
    (∀ (wd : World) (scale2 cx cy : ℚ),
      (handleMouseMoveS wd scale2 cx cy).node.tx = wd.node.tx ∧
      (handleMouseMoveS wd scale2 cx cy).node.ty = wd.node.ty) ∧
    registerS (fun c => 0) cardId cardId = 1 := by
  have hstart : handleResizeStartS
      { st := idleR, node := ⟨tx, ty, w0, h0⟩, ops := [] } cardId scale sx sy =
      { st :=
          { isResizing := true, currentCardId := some cardId, startX := sx / scale,
            startY := sy / scale, initialWidth := w0, initialHeight := h0 }
        node := ⟨tx, ty, w0, h0⟩
        ops := [] } := by
    simp [handleResizeStartS, boundingWidth, boundingHeight, mul_div_cancel_right₀, hs]
  have hgest : resizeGesture cardId ⟨tx, ty, w0, h0⟩ scale sx sy (ms ++ [(ex, ey)]) =
      { st :=
          { isResizing := false, currentCardId := none, startX := sx / scale,
            startY := sy / scale, initialWidth := w0, initialHeight := h0 }
        node :=
          { tx := tx, ty := ty,
            w := max 100 (w0 + (ex - sx) / scale), h := max 50 (h0 + (ey - sy) / scale) }
        ops := [StoreOp.updateCardSize cardId (max 100 (w0 + (ex - sx) / scale))
          (max 50 (h0 + (ey - sy) / scale))] } := by
    unfold resizeGesture
    rw [List.foldl_append, hstart]
    have hfields := resizeMoves_fields scale ms
      { st :=
          { isResizing := true, currentCardId := some cardId, startX := sx / scale,
            startY := sy / scale, initialWidth := w0, initialHeight := h0 }
        node := ⟨tx, ty, w0, h0⟩
        ops := [] }
    generalize hW : List.foldl (fun w m => handleMouseMoveS w scale m.1 m.2)
      { st :=
          { isResizing := true, currentCardId := some cardId, startX := sx / scale,
            startY := sy / scale, initialWidth := w0, initialHeight := h0 }
        node := ⟨tx, ty, w0, h0⟩
        ops := [] } ms = W
    rw [hW] at hfields
    obtain ⟨hst, hops, htx, hty⟩ := hfields
    show handleMouseUpS (handleMouseMoveS W scale ex ey) scale = _
    unfold handleMouseMoveS handleMouseUpS
    simp [hst, hops, htx, hty, boundingWidth, boundingHeight,
      mul_div_cancel_right₀, hs, div_sub_div_same]
  refine ⟨by rw [hgest], by rw [hgest], by rw [hgest], ?_, ?_, ?_⟩
  · intro op hop
    rw [hgest] at hop
    simp only [List.mem_singleton] at hop
    subst hop
    exact ⟨cardId, _, _, rfl, le_max_left _ _, le_max_left _ _⟩
  · intro wd scale2 cx cy
    unfold handleMouseMoveS
    split <;> exact ⟨rfl, rfl⟩
  · simp [registerS]

/-- Witness for the deployed-resize theorem: card of size `(200,100)` at
translation `(5,6)`, bottom-right gesture with delta `(30,-200)` at scale 1:
transform stays `(5,6)` and the single commit is
`updateCardSize "a" 230 30`. -/
theorem deployed_resize_commits_size_only_witness :
    ((1 : ℚ) ≠ 0) ∧
    ((resizeGesture "a" ⟨5, 6, 200, 100⟩ 1 0 0 ([] ++ [(30, -200)])).node.tx = 5 ∧
      (resizeGesture "a" ⟨5, 6, 200, 100⟩ 1 0 0 ([] ++ [(30, -200)])).node.ty = 6 ∧
      (resizeGesture "a" ⟨5, 6, 200, 100⟩ 1 0 0 ([] ++ [(30, -200)])).ops =
        [StoreOp.updateCardSize "a" (max 100 (200 + (30 - 0) / 1))
          (max 50 (100 + (-200 - 0) / 1))] ∧
      (∀ op ∈ (resizeGesture "a" ⟨5, 6, 200, 100⟩ 1 0 0 ([] ++ [(30, -200)])).ops,
        ∃ c ww hh, op = StoreOp.updateCardSize c ww hh ∧ 100 ≤ ww ∧ 50 ≤ hh) ∧
      (∀ (wd : World) (scale2 cx cy : ℚ),
        (handleMouseMoveS wd scale2 cx cy).node.tx = wd.node.tx ∧
        (handleMouseMoveS wd scale2 cx cy).node.ty = wd.node.ty) ∧
      registerS (fun c => 0) "a" "a" = 1) :=
  ⟨by norm_num,
    deployed_resize_commits_size_only "a" 5 6 200 100 1 0 0 30 (-200) [] (by norm_num)⟩

end SimpleResize

end Field
